import Mathlib

/-! Deployment-and-demo driver of AIGenDAO (`scripts/deploy.js`)

The driver is a straight-line asynchronous routine: it writes progress lines,
issues remote calls through the hardhat/ethers client, and stops at the first
rejected call or thrown exception.  It is embedded as a tree of effects
(`Prog`) that is interpreted against an environment answering every issued
call (`Env`).  The run records every console line and every issued call, in
order, together with the way the routine ended.
-/

namespace AIGenDAO

/-! ## Values exchanged with the network client -/

/-- Signing account returned by `ethers.getSigners()`; the script reads `address` only. -/
structure Signer where
  address : String
deriving DecidableEq, Repr

/-- Positional argument of a deployment: a string or an unsigned integer (bigint). -/
inductive Arg where
  | str (s : String)
  | uint (n : Nat)
deriving DecidableEq, Repr

/-- Remote calls issued by the script.  A contract method names the contract by its
address (`target`); `waitForDeployment` and `wait` name the object they are invoked on
by the call that produced it. -/
inductive Call where
  | getSigners
  | getContractFactory (name : String)
  | deploy (factory : String) (args : List Arg)
  | waitForDeployment (deployment : Call)
  | transfer (token : String) (recipient : String) (amount : Nat)
  | createContent (dao : String) (prompt : String) (aiModel : String) (ipfsHash : String)
  | vote (dao : String) (id : Nat)
  | batchVote (dao : String) (ids : List Nat)
  | getContent (dao : String) (id : Nat)
  | claimReputationRewards (dao : String)
  | creatorReputation (dao : String) (account : String)
  | balanceOf (token : String) (account : String)
  | wait (tx : Call)
deriving DecidableEq, Repr

/-- Data of a submitted transaction as reported by the client (never read by the script). -/
structure TxResponse where
  hash : String
deriving DecidableEq, Repr

/-- Data of a confirmed transaction: status and the numbers emitted in its event logs,
such as the id the contract assigned to a new content entry (never read by the script). -/
structure Receipt where
  status : Nat
  emitted : List Nat
deriving DecidableEq, Repr

/-- Result of `getContent(id)`: prompt, model label, content hash, vote count. -/
structure ContentTuple where
  prompt : String
  aiModel : String
  ipfsHash : String
  votes : Nat
deriving DecidableEq, Repr

/-- Type of the value a call resolves to. -/
def Call.Ret : Call → Type
  | .getSigners => List Signer
  | .getContractFactory _ => Unit
  | .deploy _ _ => String
  | .waitForDeployment _ => Unit
  | .transfer _ _ _ => TxResponse
  | .createContent _ _ _ _ => TxResponse
  | .vote _ _ => TxResponse
  | .batchVote _ _ => TxResponse
  | .getContent _ _ => ContentTuple
  | .claimReputationRewards _ => TxResponse
  | .creatorReputation _ _ => Nat
  | .balanceOf _ _ => Nat
  | .wait _ => Receipt

/-- What reaches the top-level `catch`: a rejected call, or an exception thrown by the
script itself (a `TypeError`, a parse error). -/
inductive Thrown where
  | rejected (c : Call) (reason : String)
  | exception (msg : String)
deriving DecidableEq, Repr

/-- Observable events of a run, in order: a `console.log` line, an issued call, a
`console.error` with its label and the error object. -/
inductive Event where
  | log (line : String)
  | call (c : Call)
  | error (label : String) (e : Thrown)
deriving DecidableEq, Repr

/-- Environment: given the calls answered so far and the call being issued, either a
value of the call's return type or a rejection reason. -/
def Env : Type := (hist : List Call) → (c : Call) → Except String c.Ret

/-! ## Effect trees and their interpretation -/

/-- Tree of effects of an asynchronous routine. -/
inductive Prog (α : Type) : Type where
  | pure (a : α)
  | log (line : String) (k : Prog α)
  | call (c : Call) (k : c.Ret → Prog α)
  | throw (msg : String)

/-- Sequencing: the continuation runs only when the first part returns a value. -/
def Prog.bind {α β : Type} : Prog α → (α → Prog β) → Prog β
  | .pure a, f => f a
  | .log line k, f => .log line (k.bind f)
  | .call c k, f => .call c (fun r => (k r).bind f)
  | .throw msg, _ => .throw msg

instance : Monad Prog where
  pure := Prog.pure
  bind := Prog.bind

/-- Events of a run and its ending: a value, or what was thrown. -/
structure Run (α : Type) where
  events : List Event
  outcome : Except Thrown α

/-- Put an event in front of a run. -/
def Run.cons {α : Type} (e : Event) (r : Run α) : Run α :=
  { events := e :: r.events, outcome := r.outcome }

/-- Interpreter: an `await`ed call that rejects ends the run at once. -/
def run {α : Type} : Prog α → Env → List Call → Run α
  | .pure a, _, _ => { events := [], outcome := .ok a }
  | .log line k, env, hist => (run k env hist).cons (.log line)
  | .throw msg, _, _ => { events := [], outcome := .error (.exception msg) }
  | .call c k, env, hist =>
    match env hist c with
    | .ok r => (run (k r) env (hist ++ [c])).cons (.call c)
    | .error reason => { events := [.call c], outcome := .error (.rejected c reason) }

/-- Calls issued, in order. -/
def calls : List Event → List Call
  | [] => []
  | .call c :: es => c :: calls es
  | _ :: es => calls es

/-- Lines written to standard output, in order. -/
def stdout : List Event → List String
  | [] => []
  | .log line :: es => line :: stdout es
  | _ :: es => stdout es

/-- Reports written to the error stream, in order. -/
def stderr : List Event → List (String × Thrown)
  | [] => []
  | .error label e :: es => (label, e) :: stderr es
  | _ :: es => stderr es

/-! ## The fixed-point helper of the client library -/

/-- Value of a run of decimal digits, `none` when a character is not a digit. -/
def parseDigits (cs : List Char) : Option Nat :=
  cs.foldlM (fun acc c => if c.isDigit then some (acc * 10 + (c.toNat - 48)) else none) 0

/-- Modelled from the spec: the fixed-point decimal helper `ethers.parseEther`, which is
library code absent from the sources.  It converts an unsigned whole-unit decimal literal
(digits, optionally a point and more digits, of which those after the 18th must be zeros) to
the integer representation with 18 decimals; `none` stands for the exception thrown on a
malformed literal.  Signed literals are outside the model. -/
def parseEther (s : String) : Option Nat :=
  let (whole, rest) := s.toList.span (fun c => c != '.')
  match rest with
  | [] => if whole = [] then none else (parseDigits whole).map (fun w => w * 10 ^ 18)
  | _ :: frac =>
    if whole.length + frac.length = 0 ∨ (frac.drop 18).any (fun c => c != '0') then none
    else do
      let w ← parseDigits whole
      let f ← parseDigits (frac.take 18)
      some (w * 10 ^ 18 + f * 10 ^ (18 - (frac.take 18).length))

/-- Drop trailing zeros of a fraction, keeping at least one digit. -/
def trimFraction (ds : List Char) : List Char :=
  match (ds.reverse.dropWhile (fun c => c == '0')).reverse with
  | [] => ['0']
  | t => t

/-- Modelled from the spec: the display direction of the helper, `ethers.formatEther`:
whole part, a point, and the 18-digit fraction without its trailing zeros (one digit at
least), so that 10^23 is shown as "100000.0". -/
def formatEther (wei : Nat) : String :=
  let frac := (Nat.toDigits 10 (wei % 10 ^ 18))
  let padded := List.replicate (18 - frac.length) '0' ++ frac
  toString (wei / 10 ^ 18) ++ "." ++ String.mk (trimFraction padded)

/-! ## Client objects held by the script -/

/-- Handle returned by `getContractFactory`. -/
structure ContractFactory where
  contractName : String

/-- Handle returned by `deploy`: the deployment it stands for and its address. -/
structure Contract where
  deployment : Call
  target : String

/-- Handle of a submitted transaction: the request and the client's response. -/
structure Tx where
  request : Call
  response : TxResponse

/-- Issue one call and wait for its answer (`await`). -/
def perform (c : Call) : Prog c.Ret := .call c .pure

/-- Write a line with `console.log`. -/
def consoleLog (line : String) : Prog Unit := .log line (.pure ())

/-- Read `deployer.address`; on `undefined` this is the `TypeError` of JavaScript. -/
def address (deployer : Option Signer) : Prog String :=
  match deployer with
  | some s => .pure s.address
  | none => .throw "TypeError: Cannot read properties of undefined (reading 'address')"

/-- Evaluate `ethers.parseEther(literal)`, which throws on a malformed literal. -/
def parseEtherOrThrow (literal : String) : Prog Nat :=
  match parseEther literal with
  | some n => .pure n
  | none => .throw "TypeError: invalid FixedNumber string value"

/-- `ethers.getSigners()`. -/
def getSigners : Prog (List Signer) := perform .getSigners

/-- `ethers.getContractFactory(name)`. -/
def getContractFactory (name : String) : Prog ContractFactory := do
  let _ ← perform (.getContractFactory name)
  pure { contractName := name }

/-- `factory.deploy(...args)`: resolves to a handle that carries the address. -/
def ContractFactory.deploy (f : ContractFactory) (args : List Arg) : Prog Contract := do
  let target ← perform (.deploy f.contractName args)
  pure { deployment := .deploy f.contractName args, target := target }

/-- `contract.waitForDeployment()`. -/
def Contract.waitForDeployment (c : Contract) : Prog Unit :=
  perform (.waitForDeployment c.deployment)

/-- `token.transfer(to, amount)`: resolves to the submitted transaction. -/
def Contract.transfer (c : Contract) (recipient : String) (amount : Nat) : Prog Tx := do
  let r ← perform (.transfer c.target recipient amount)
  pure { request := .transfer c.target recipient amount, response := r }

/-- `dao.createContent(prompt, model, hash)`: resolves to the submitted transaction. -/
def Contract.createContent (c : Contract) (prompt aiModel ipfsHash : String) : Prog Tx := do
  let r ← perform (.createContent c.target prompt aiModel ipfsHash)
  pure { request := .createContent c.target prompt aiModel ipfsHash, response := r }

/-- `dao.vote(id)`: resolves to the submitted transaction. -/
def Contract.vote (c : Contract) (id : Nat) : Prog Tx := do
  let r ← perform (.vote c.target id)
  pure { request := .vote c.target id, response := r }

/-- `dao.batchVote(ids)`: resolves to the submitted transaction. -/
def Contract.batchVote (c : Contract) (ids : List Nat) : Prog Tx := do
  let r ← perform (.batchVote c.target ids)
  pure { request := .batchVote c.target ids, response := r }

/-- `dao.getContent(id)`, a read. -/
def Contract.getContent (c : Contract) (id : Nat) : Prog ContentTuple :=
  perform (.getContent c.target id)

/-- `dao.claimReputationRewards()`: resolves to the submitted transaction. -/
def Contract.claimReputationRewards (c : Contract) : Prog Tx := do
  let r ← perform (.claimReputationRewards c.target)
  pure { request := .claimReputationRewards c.target, response := r }

/-- `dao.creatorReputation(account)`, a read. -/
def Contract.creatorReputation (c : Contract) (account : String) : Prog Nat :=
  perform (.creatorReputation c.target account)

/-- `token.balanceOf(account)`, a read. -/
def Contract.balanceOf (c : Contract) (account : String) : Prog Nat :=
  perform (.balanceOf c.target account)

/-- `tx.wait()`: resolves when the transaction is confirmed. -/
def Tx.wait (tx : Tx) : Prog Receipt := perform (.wait tx.request)

/-! ## The script -/

/-- The routine `main` of `scripts/deploy.js`, statement by statement. -/
def main : Prog Unit := do
  -- STAGE 1: SETUP
  consoleLog "🚀 Starting AIGenDAO deployment..."
  let signers ← getSigners
  let deployer := signers.head?
  consoleLog ("🔑 Using account: " ++ (← address deployer))
  -- STAGE 2: DEPLOY REWARD TOKEN
  consoleLog "🪙 Deploying reward token..."
  let RewardToken ← getContractFactory "ERC20Mock"
  let rewardToken ← RewardToken.deploy
    [.str "AIGen Reward", .str "AIGR", .str (← address deployer),
      .uint (← parseEtherOrThrow "1000000")]
  rewardToken.waitForDeployment
  consoleLog ("✅ Reward Token deployed to: " ++ rewardToken.target)
  -- STAGE 3: DEPLOY AIGenDAO
  consoleLog "🖼️ Deploying AIGenDAO contract..."
  let AIGenDAO ← getContractFactory "AIGenDAO"
  let aigendao ← AIGenDAO.deploy [.str rewardToken.target]
  aigendao.waitForDeployment
  consoleLog ("✅ AIGenDAO deployed to: " ++ aigendao.target)
  -- STAGE 4: FUND CONTRACT WITH REWARDS
  consoleLog "💰 Funding contract with reward tokens..."
  let fundAmount ← parseEtherOrThrow "100000"
  let _ ← rewardToken.transfer aigendao.target fundAmount
  consoleLog ("✅ Contract funded with " ++ formatEther fundAmount ++ " tokens")
  -- STAGE 5: DEMO INTERACTIONS
  consoleLog "🎬 Starting demo interactions..."
  consoleLog "📝 Creating content..."
  let createTx ← aigendao.createContent
    "A futuristic cityscape at sunset" "Stable Diffusion v2.1" "QmXyZ123...abc"
  let _ ← createTx.wait
  consoleLog "✅ Content created (Token ID: 0)"
  let createTx2 ← aigendao.createContent
    "Cyberpunk character portrait" "Midjourney v5" "QmAbC456...def"
  let _ ← createTx2.wait
  consoleLog "✅ Content created (Token ID: 1)"
  consoleLog "🗳️ Voting on content..."
  let voteTx ← aigendao.vote 0
  let _ ← voteTx.wait
  consoleLog "✅ Voted on Token ID 0"
  consoleLog "🗳️ Batch voting..."
  let batchVoteTx ← aigendao.batchVote [0, 1]
  let _ ← batchVoteTx.wait
  consoleLog "✅ Batch voted on Token IDs [0, 1]"
  consoleLog "🔍 Checking content details..."
  let content ← aigendao.getContent 0
  consoleLog ("📋 Content 0 Details:\n  Prompt: " ++ content.prompt
    ++ "\n  AI Model: " ++ content.aiModel
    ++ "\n  IPFS Hash: " ++ content.ipfsHash
    ++ "\n  Votes: " ++ toString content.votes)
  consoleLog "🏆 Claiming reputation rewards..."
  let claimTx ← aigendao.claimReputationRewards
  let _ ← claimTx.wait
  consoleLog "✅ Reputation rewards claimed"
  -- STAGE 6: VERIFICATION
  consoleLog "🔎 Verifying contract state..."
  let creatorRep ← aigendao.creatorReputation (← address deployer)
  consoleLog ("🏅 Creator reputation: " ++ toString creatorRep)
  let balance ← rewardToken.balanceOf (← address deployer)
  consoleLog ("💰 Deployer token balance: " ++ formatEther balance)
  consoleLog "🎉 Deployment and demo completed successfully!"

/-- What the process leaves behind: all events and the exit status. -/
structure Outcome where
  events : List Event
  exit : Nat
deriving DecidableEq, Repr

/-- The entry point `main().then(() => process.exit(0)).catch(...)`: on an error the
handler writes one `console.error` and exits with status 1. -/
def entry (env : Env) : Outcome :=
  let r := run main env []
  match r.outcome with
  | .ok _ => { events := r.events, exit := 0 }
  | .error e => { events := r.events ++ [.error "❌ Deployment failed:" e], exit := 1 }

/-! ## Vocabulary of the properties -/

/-- The call issued at step `k` (issued calls are counted from 0) is answered with a
rejection.  A rejection ends the run, so such a step is the first failing one. -/
def FailsAt (env : Env) (k : Nat) : Prop :=
  ∃ c reason, (calls (run main env []).events)[k]? = some c ∧
    env ((calls (run main env []).events).take k) c = .error reason

/-- Every call the routine issues is answered with a value. -/
def AllCallsSucceed (env : Env) : Prop := ∀ k, ¬ FailsAt env k

/-- Deployment of the reward token by the account `deployer`. -/
def tokenDeployment (deployer : String) : Call :=
  .deploy "ERC20Mock" [.str "AIGen Reward", .str "AIGR", .str deployer, .uint (10 ^ 24)]

/-- Deployment of the DAO contract for the reward token at `token`. -/
def daoDeployment (token : String) : Call :=
  .deploy "AIGenDAO" [.str token]

/-- First content creation of the demo. -/
def firstCreation (dao : String) : Call :=
  .createContent dao "A futuristic cityscape at sunset" "Stable Diffusion v2.1" "QmXyZ123...abc"

/-- Second content creation of the demo. -/
def secondCreation (dao : String) : Call :=
  .createContent dao "Cyberpunk character portrait" "Midjourney v5" "QmAbC456...def"

/-- All calls of a complete run, in order, for the deployer address and the two deployed
addresses. -/
def successCalls (deployer token dao : String) : List Call :=
  [ .getSigners,
    .getContractFactory "ERC20Mock",
    tokenDeployment deployer,
    .waitForDeployment (tokenDeployment deployer),
    .getContractFactory "AIGenDAO",
    daoDeployment token,
    .waitForDeployment (daoDeployment token),
    .transfer token dao (10 ^ 23),
    firstCreation dao,
    .wait (firstCreation dao),
    secondCreation dao,
    .wait (secondCreation dao),
    .vote dao 0,
    .wait (.vote dao 0),
    .batchVote dao [0, 1],
    .wait (.batchVote dao [0, 1]),
    .getContent dao 0,
    .claimReputationRewards dao,
    .wait (.claimReputationRewards dao),
    .creatorReputation dao deployer,
    .balanceOf token deployer ]

/-- Contract-level calls: deployments and contract methods, as opposed to client
bookkeeping (`getSigners`, `getContractFactory`) and confirmation waits. -/
def contractLevel : Call → Bool
  | .getSigners => false
  | .getContractFactory _ => false
  | .waitForDeployment _ => false
  | .wait _ => false
  | _ => true

/-- The contract-level calls of a complete run, in order. -/
def contractCalls (deployer token dao : String) : List Call :=
  [ tokenDeployment deployer,
    daoDeployment token,
    .transfer token dao (10 ^ 23),
    firstCreation dao,
    secondCreation dao,
    .vote dao 0,
    .batchVote dao [0, 1],
    .getContent dao 0,
    .claimReputationRewards dao,
    .creatorReputation dao deployer,
    .balanceOf token deployer ]

/-- Progress lines of a run up to the content read; none of them shows a value returned by
a contract method. -/
def progressLines (deployer token dao : String) : List String :=
  [ "🚀 Starting AIGenDAO deployment...",
    "🔑 Using account: " ++ deployer,
    "🪙 Deploying reward token...",
    "✅ Reward Token deployed to: " ++ token,
    "🖼️ Deploying AIGenDAO contract...",
    "✅ AIGenDAO deployed to: " ++ dao,
    "💰 Funding contract with reward tokens...",
    "✅ Contract funded with " ++ formatEther (10 ^ 23) ++ " tokens",
    "🎬 Starting demo interactions...",
    "📝 Creating content...",
    "✅ Content created (Token ID: 0)",
    "✅ Content created (Token ID: 1)",
    "🗳️ Voting on content...",
    "✅ Voted on Token ID 0",
    "🗳️ Batch voting...",
    "✅ Batch voted on Token IDs [0, 1]",
    "🔍 Checking content details..." ]

/-- The line that prints the record read back with `getContent(0)`. -/
def detailsLine (content : ContentTuple) : String :=
  "📋 Content 0 Details:\n  Prompt: " ++ content.prompt
    ++ "\n  AI Model: " ++ content.aiModel
    ++ "\n  IPFS Hash: " ++ content.ipfsHash
    ++ "\n  Votes: " ++ toString content.votes

/-- All events of a complete run, in order, for the values the routine reads from the
environment. -/
def successEvents (deployer token dao : String) (content : ContentTuple) (rep bal : Nat) :
    List Event :=
  [ .log "🚀 Starting AIGenDAO deployment...",
    .call .getSigners,
    .log ("🔑 Using account: " ++ deployer),
    .log "🪙 Deploying reward token...",
    .call (.getContractFactory "ERC20Mock"),
    .call (tokenDeployment deployer),
    .call (.waitForDeployment (tokenDeployment deployer)),
    .log ("✅ Reward Token deployed to: " ++ token),
    .log "🖼️ Deploying AIGenDAO contract...",
    .call (.getContractFactory "AIGenDAO"),
    .call (daoDeployment token),
    .call (.waitForDeployment (daoDeployment token)),
    .log ("✅ AIGenDAO deployed to: " ++ dao),
    .log "💰 Funding contract with reward tokens...",
    .call (.transfer token dao (10 ^ 23)),
    .log ("✅ Contract funded with " ++ formatEther (10 ^ 23) ++ " tokens"),
    .log "🎬 Starting demo interactions...",
    .log "📝 Creating content...",
    .call (firstCreation dao),
    .call (.wait (firstCreation dao)),
    .log "✅ Content created (Token ID: 0)",
    .call (secondCreation dao),
    .call (.wait (secondCreation dao)),
    .log "✅ Content created (Token ID: 1)",
    .log "🗳️ Voting on content...",
    .call (.vote dao 0),
    .call (.wait (.vote dao 0)),
    .log "✅ Voted on Token ID 0",
    .log "🗳️ Batch voting...",
    .call (.batchVote dao [0, 1]),
    .call (.wait (.batchVote dao [0, 1])),
    .log "✅ Batch voted on Token IDs [0, 1]",
    .log "🔍 Checking content details...",
    .call (.getContent dao 0),
    .log (detailsLine content),
    .log "🏆 Claiming reputation rewards...",
    .call (.claimReputationRewards dao),
    .call (.wait (.claimReputationRewards dao)),
    .log "✅ Reputation rewards claimed",
    .log "🔎 Verifying contract state...",
    .call (.creatorReputation dao deployer),
    .log ("🏅 Creator reputation: " ++ toString rep),
    .call (.balanceOf token deployer),
    .log ("💰 Deployer token balance: " ++ formatEther bal),
    .log "🎉 Deployment and demo completed successfully!" ]

/-- Events up to and including the wait for the reward token's deployment; they are fixed
by the deployer address alone. -/
def tokenStageEvents (deployer : String) : List Event :=
  [ .log "🚀 Starting AIGenDAO deployment...",
    .call .getSigners,
    .log ("🔑 Using account: " ++ deployer),
    .log "🪙 Deploying reward token...",
    .call (.getContractFactory "ERC20Mock"),
    .call (tokenDeployment deployer),
    .call (.waitForDeployment (tokenDeployment deployer)) ]

/-- Addresses the environment hands out for the deployments among the calls `cs`, issued
after the history `hist`. -/
def deployedAddresses (env : Env) : List Call → List Call → List String
  | _, [] => []
  | hist, c :: cs =>
    (match c with
      | .deploy factory args =>
        (match env hist (.deploy factory args) with
          | .ok addr => [addr]
          | .error _ => [])
      | _ => []) ++ deployedAddresses env (hist ++ [c]) cs

/-- The run of `p` after the history `hist` continues the events `acc` to `evs` and ends
with `o`. -/
def Ends {α : Type} (p : Prog α) (env : Env) (hist : List Call) (acc evs : List Event)
    (o : Except Thrown α) : Prop :=
  acc ++ (run p env hist).events = evs ∧ (run p env hist).outcome = o

/-! ## Reference models of the two contracts -/

/-- Modelled from the spec: the reward-token interface `constructor(name, symbol,
initialHolder, initialSupply)`, `transfer(to, amount)`, `balanceOf(address)` of the ERC20Mock
contract, whose source is absent; a standard ERC20 ledger. -/
structure ERC20 where
  name : String
  symbol : String
  totalSupply : Nat
  balances : String → Nat

/-- Modelled from the spec: the token's fixed-point scale, the standard 18 decimals that
`parseEther` presumes. -/
def ERC20.decimals (_ : ERC20) : Nat := 18

/-- Modelled from the spec: the constructor mints the whole supply to the initial holder. -/
def ERC20.construct (name symbol initialHolder : String) (initialSupply : Nat) : ERC20 :=
  { name := name, symbol := symbol, totalSupply := initialSupply,
    balances := fun a => if a = initialHolder then initialSupply else 0 }

/-- Modelled from the spec: `balanceOf(address)`. -/
def ERC20.balanceOf (st : ERC20) (account : String) : Nat := st.balances account

/-- Modelled from the spec: `transfer` moves `amount` from the sender to the recipient and
reverts (`none`) on insufficient balance. -/
def ERC20.transfer (st : ERC20) (sender recipient : String) (amount : Nat) : Option ERC20 :=
  if st.balances sender < amount then none
  else
    let debited : String → Nat := fun a =>
      if a = sender then st.balances a - amount else st.balances a
    some { st with balances := fun a => if a = recipient then debited a + amount else debited a }

/-- Modelled from the spec: state of the AIGenDAO contract (source absent) as far as the
demo reads it: the content entries in creation order, the entry at position `i` having
id `i`. -/
structure DAO where
  contents : List ContentTuple
deriving DecidableEq, Repr

/-- Modelled from the spec: a fresh deployment holds no content. -/
def DAO.fresh : DAO := { contents := [] }

/-- Modelled from the spec: `createContent` appends an entry without votes; its id is the
number of entries created before it. -/
def DAO.createContent (st : DAO) (prompt aiModel ipfsHash : String) : DAO :=
  { contents := st.contents ++
      [{ prompt := prompt, aiModel := aiModel, ipfsHash := ipfsHash, votes := 0 }] }

/-- Add one vote to the entry at position `id`; `none` when there is no such entry. -/
def bumpVotes : List ContentTuple → Nat → Option (List ContentTuple)
  | [], _ => none
  | c :: cs, 0 => some ({ c with votes := c.votes + 1 } :: cs)
  | c :: cs, id + 1 => (bumpVotes cs id).map (fun rest => c :: rest)

/-- Modelled from the spec: `vote(id)` adds one vote, and reverts on an id that does not
exist. -/
def DAO.vote (st : DAO) (id : Nat) : Option DAO :=
  (bumpVotes st.contents id).map (fun cs => { contents := cs })

/-- Modelled from the spec: `batchVote(idList)` applies the vote to every listed id, or
reverts as a whole. -/
def DAO.batchVote (st : DAO) (ids : List Nat) : Option DAO :=
  ids.foldlM DAO.vote st

/-- Modelled from the spec: `getContent(id)` returns the entry, and reverts on an id that
does not exist. -/
def DAO.getContent (st : DAO) (id : Nat) : Option ContentTuple :=
  st.contents[id]?

/-- Effect of one confirmed call on the DAO: the deployment starts from the fresh state, a
confirmed transaction applies its method, a reverting one changes nothing. -/
def DAO.confirm (st : Option DAO) : Call → Option DAO
  | .waitForDeployment (.deploy factory _) => if factory = "AIGenDAO" then some DAO.fresh else st
  | .wait (.createContent _ prompt aiModel ipfsHash) =>
    st.map (fun s => s.createContent prompt aiModel ipfsHash)
  | .wait (.vote _ id) => st.map (fun s => (s.vote id).getD s)
  | .wait (.batchVote _ ids) => st.map (fun s => (s.batchVote ids).getD s)
  | _ => st

/-- State of the DAO after the calls of `hist` were answered. -/
def DAO.replay (hist : List Call) : Option DAO :=
  hist.foldl DAO.confirm none

/-- Answer of the DAO model to `getContent(id)` after the history `hist`. -/
def DAO.read (hist : List Call) (id : Nat) : Except String ContentTuple :=
  match (DAO.replay hist).bind (fun s => s.getContent id) with
  | some t => .ok t
  | none => .error "execution reverted"

/-- The environment answers `getContent` as the DAO model does. -/
def FollowsDao (env : Env) : Prop :=
  ∀ hist dao id, env hist (.getContent dao id) = DAO.read hist id

/-! ## Sample environments -/

/-- First account of a local development node. -/
def deployerAccount : Signer := { address := "0xf39Fd6e51aad88F6F4ce6aB8827279cffFb92266" }

/-- Second account of a local development node. -/
def secondAccount : Signer := { address := "0x70997970C51812dc3A010C7d01b50e0d17dc79C8" }

/-- Address of the first contract deployed on a local development node. -/
def tokenAddress : String := "0x5FbDB2315678afecb367f032d93F642f64180aa3"

/-- Address of the second contract deployed on a local development node. -/
def daoAddress : String := "0xe7f1725E7734CE288F8367e1Bb143E90bb3F0512"

/-- A node on which every call succeeds: it hands out `signers`, deploys at two fixed
addresses, answers every wait with `receipt`, reads content from the DAO model and reports
the given reputation and balance. -/
def nodeEnv (signers : List Signer) (receipt : Receipt) (rep bal : Nat) : Env :=
  fun hist c =>
    match c with
    | .getSigners => .ok signers
    | .getContractFactory _ => .ok ()
    | .deploy factory _ => .ok (if factory = "ERC20Mock" then tokenAddress else daoAddress)
    | .waitForDeployment _ => .ok ()
    | .transfer _ _ _ => .ok { hash := "0x01" }
    | .createContent _ _ _ _ => .ok { hash := "0x02" }
    | .vote _ _ => .ok { hash := "0x03" }
    | .batchVote _ _ => .ok { hash := "0x04" }
    | .getContent _ id => DAO.read hist id
    | .claimReputationRewards _ => .ok { hash := "0x05" }
    | .creatorReputation _ _ => .ok rep
    | .balanceOf _ _ => .ok bal
    | .wait _ => .ok receipt

/-- A node with two accounts. -/
def sampleEnv : Env :=
  nodeEnv [deployerAccount, secondAccount] { status := 1, emitted := [] } 10 (9 * 10 ^ 23)

/-- A node without any signing account. -/
def noSignersEnv : Env :=
  nodeEnv [] { status := 1, emitted := [] } 0 0

/-- The environment `env`, except that the call issued at step `k` is rejected. -/
def failingAt (k : Nat) (env : Env) : Env :=
  fun hist c => if hist.length = k then .error "execution reverted" else env hist c

/-- The environment `env`, except that the first call, `getSigners`, hands out `signers`. -/
def withSigners (signers : List Signer) (env : Env) : Env :=
  fun hist c =>
    match hist, c with
    | [], .getSigners => .ok signers
    | _, d => env hist d

/-- A node on which `claimReputationRewards`, the call of step 17, reverts. -/
def claimFailsEnv : Env := failingAt 17 sampleEnv

/-- A node that differs from `sampleEnv` in every value a contract method returns: the
receipts report other ids, the content read back, the reputation and the balance differ. -/
def otherEnv : Env :=
  fun hist c =>
    match c with
    | .getContent _ _ =>
      .ok { prompt := "another prompt", aiModel := "another model", ipfsHash := "Qm", votes := 99 }
    | .createContent _ _ _ _ => .ok { hash := "0xff" }
    | d => nodeEnv [deployerAccount, secondAccount] { status := 1, emitted := [41, 42] } 7 5 hist d


/-! ## General facts about runs -/

@[simp] theorem bind_eq_progBind {α β : Type} (p : Prog α) (f : α → Prog β) :
    (p >>= f) = p.bind f := rfl

@[simp] theorem pure_eq_progPure {α : Type} (a : α) : (pure a : Prog α) = Prog.pure a := rfl

theorem events_log {α : Type} (line : String) (k : Prog α) (env : Env) (hist : List Call) :
    (run (.log line k) env hist).events = .log line :: (run k env hist).events := by
  rw [run]; rfl

theorem outcome_log {α : Type} (line : String) (k : Prog α) (env : Env) (hist : List Call) :
    (run (.log line k) env hist).outcome = (run k env hist).outcome := by
  rw [run]; rfl

theorem events_call {α : Type} (c : Call) (k : c.Ret → Prog α) (env : Env) (hist : List Call) :
    (run (.call c k) env hist).events =
      .call c :: (match env hist c with
        | .ok r => (run (k r) env (hist ++ [c])).events
        | .error _ => []) := by
  rw [run]; cases env hist c <;> rfl

theorem outcome_call {α : Type} (c : Call) (k : c.Ret → Prog α) (env : Env) (hist : List Call) :
    (run (.call c k) env hist).outcome =
      (match env hist c with
        | .ok r => (run (k r) env (hist ++ [c])).outcome
        | .error reason => .error (.rejected c reason)) := by
  rw [run]; cases env hist c <;> rfl

theorem events_pure {α : Type} (a : α) (env : Env) (hist : List Call) :
    (run (.pure a) env hist).events = [] := by
  rw [run]

theorem outcome_pure {α : Type} (a : α) (env : Env) (hist : List Call) :
    (run (.pure a) env hist).outcome = .ok a := by
  rw [run]

theorem events_throw {α : Type} (msg : String) (env : Env) (hist : List Call) :
    (run (.throw msg : Prog α) env hist).events = [] := by
  rw [run]

theorem outcome_throw {α : Type} (msg : String) (env : Env) (hist : List Call) :
    (run (.throw msg : Prog α) env hist).outcome = .error (.exception msg) := by
  rw [run]

/-- A run that ends with a rejected call has issued at least one call. -/
theorem calls_ne_nil_of_rejected {α : Type} (p : Prog α) (env : Env) (hist : List Call)
    (c : Call) (reason : String)
    (h : (run p env hist).outcome = .error (.rejected c reason)) :
    calls (run p env hist).events ≠ [] := by
  induction p generalizing hist with
  | pure a => simp [outcome_pure] at h
  | throw msg => simp [outcome_throw] at h
  | log line k ih =>
    rw [outcome_log] at h
    simpa [events_log, calls] using ih hist h
  | call d k ih =>
    simp [events_call, calls]

/-- A call answered with a rejection is the last call of the run, and the run ends with it. -/
theorem rejected_is_last {α : Type} (p : Prog α) (env : Env) (hist : List Call) (k : Nat)
    (c : Call) (reason : String)
    (hk : (calls (run p env hist).events)[k]? = some c)
    (hfail : env (hist ++ (calls (run p env hist).events).take k) c = .error reason) :
    (calls (run p env hist).events).length = k + 1 ∧
      (run p env hist).outcome = .error (.rejected c reason) := by
  induction p generalizing hist k with
  | pure a => simp [events_pure, calls] at hk
  | throw msg => simp [events_throw, calls] at hk
  | log line q ih =>
    simp only [events_log, calls, outcome_log] at hk hfail ⊢
    exact ih hist k hk hfail
  | call d q ih =>
    simp only [events_call, calls, outcome_call] at hk hfail ⊢
    cases hd : env hist d with
    | error why =>
      simp only [hd, calls] at hk hfail ⊢
      cases k with
      | zero =>
        simp only [List.getElem?_cons_zero, Option.some.injEq] at hk
        subst hk
        simp only [List.take_zero, List.append_nil] at hfail
        rw [hd] at hfail
        simp only [Except.error.injEq] at hfail
        simp [hfail]
      | succ n => simp at hk
    | ok r =>
      simp only [hd] at hk hfail ⊢
      cases k with
      | zero =>
        simp only [List.getElem?_cons_zero, Option.some.injEq] at hk
        subst hk
        simp only [List.take_zero, List.append_nil] at hfail
        rw [hd] at hfail
        simp at hfail
      | succ n =>
        simp only [List.getElem?_cons_succ, List.take_succ_cons] at hk hfail
        have hfail2 : env (hist ++ [d] ++ (calls (run (q r) env (hist ++ [d])).events).take n) c
            = .error reason := by
          simpa [List.append_assoc] using hfail
        have := ih r (hist ++ [d]) n hk hfail2
        simpa using this

/-- A run that ends with a rejected call: the rejected call is the last one issued and the
environment answered it with that rejection. -/
theorem exists_failing_index {α : Type} (p : Prog α) (env : Env) (hist : List Call)
    (c : Call) (reason : String)
    (h : (run p env hist).outcome = .error (.rejected c reason)) :
    ∃ k, (calls (run p env hist).events)[k]? = some c ∧
      env (hist ++ (calls (run p env hist).events).take k) c = .error reason := by
  induction p generalizing hist with
  | pure a => simp [outcome_pure] at h
  | throw msg => simp [outcome_throw] at h
  | log line q ih =>
    simp only [events_log, calls, outcome_log] at h ⊢
    exact ih hist h
  | call d q ih =>
    simp only [events_call, calls, outcome_call] at h ⊢
    cases hd : env hist d with
    | error why =>
      simp only [hd] at h ⊢
      simp only [Except.error.injEq, Thrown.rejected.injEq] at h
      obtain ⟨rfl, rfl⟩ := h
      exact ⟨0, by simp, by simpa using hd⟩
    | ok r =>
      simp only [hd] at h ⊢
      obtain ⟨k, hk, hf⟩ := ih r (hist ++ [d]) h
      refine ⟨k + 1, by simpa using hk, ?_⟩
      simpa [List.append_assoc] using hf

/-- Two environments that answer alike up to the failing call issue the same calls up to
that call. -/
theorem calls_take_of_agree {α : Type} (p : Prog α) (env env' : Env) (hist : List Call)
    (k : Nat) (c : Call) (reason : String)
    (hagree : ∀ h d, h.length < hist.length + k → env' h d = env h d)
    (hlen : (calls (run p env hist).events).length = k + 1)
    (hout : (run p env hist).outcome = .error (.rejected c reason)) :
    calls (run p env hist).events = (calls (run p env' hist).events).take (k + 1) := by
  induction p generalizing hist k with
  | pure a => simp [outcome_pure] at hout
  | throw msg => simp [outcome_throw] at hout
  | log line q ih =>
    simp only [events_log, calls, outcome_log] at hlen hout ⊢
    exact ih hist k hagree hlen hout
  | call d q ih =>
    simp only [events_call, calls, outcome_call] at hlen hout ⊢
    cases hd : env hist d with
    | error why =>
      simp only [hd, calls, List.length_singleton] at hlen hout ⊢
      have hk : k = 0 := by omega
      subst hk
      simp
    | ok r =>
      simp only [hd, List.length_cons] at hlen hout ⊢
      have hne := calls_ne_nil_of_rejected (q r) env (hist ++ [d]) c reason hout
      have hpos : 0 < (calls (run (q r) env (hist ++ [d])).events).length :=
        List.length_pos.mpr hne
      obtain ⟨n, rfl⟩ : ∃ n, k = n + 1 := ⟨k - 1, by omega⟩
      have hd' : env' hist d = .ok r := by
        rw [hagree hist d (by omega), hd]
      simp only [hd', List.take_succ_cons, List.cons.injEq, true_and]
      refine ih r (hist ++ [d]) n ?_ (by omega) hout
      intro h e hh
      exact hagree h e (by simp only [List.length_append, List.length_singleton] at hh; omega)

/-- A run depends only on the answers to histories at least as long as its starting one. -/
theorem run_congr {α : Type} (p : Prog α) (env env' : Env) (hist : List Call)
    (hagree : ∀ h d, hist.length ≤ h.length → env' h d = env h d) :
    run p env' hist = run p env hist := by
  induction p generalizing hist with
  | pure a => simp [run]
  | throw msg => simp [run]
  | log line q ih => rw [run, run, ih hist hagree]
  | call d q ih =>
    rw [run, run, hagree hist d le_rfl]
    cases env hist d with
    | error why => rfl
    | ok r =>
      simp only
      rw [ih r (hist ++ [d])]
      intro h e hh
      exact hagree h e (by simp only [List.length_append, List.length_singleton] at hh; omega)

/-- The routine itself never writes to the error stream. -/
theorem stderr_run {α : Type} (p : Prog α) (env : Env) (hist : List Call) :
    stderr (run p env hist).events = [] := by
  induction p generalizing hist with
  | pure a => simp [events_pure, stderr]
  | throw msg => simp [events_throw, stderr]
  | log line q ih => simpa [events_log, stderr] using ih hist
  | call d q ih =>
    simp only [events_call, stderr]
    cases env hist d with
    | error why => simp [stderr]
    | ok r => simpa using ih r (hist ++ [d])


/-! ## Symbolic execution of a run -/

theorem parseEther_supply : parseEther "1000000" = some (10 ^ 24) := by decide

theorem parseEther_fund : parseEther "100000" = some (10 ^ 23) := by decide

theorem mem_calls_pure {α : Type} (c : Call) (a : α) (env : Env) (hist : List Call) :
    c ∈ calls (run (.pure a) env hist).events ↔ False := by
  simp [events_pure, calls]

theorem mem_calls_throw {α : Type} (c : Call) (msg : String) (env : Env) (hist : List Call) :
    c ∈ calls (run (.throw msg : Prog α) env hist).events ↔ False := by
  simp [events_throw, calls]

theorem mem_calls_log {α : Type} (c : Call) (line : String) (k : Prog α) (env : Env)
    (hist : List Call) :
    c ∈ calls (run (.log line k) env hist).events ↔ c ∈ calls (run k env hist).events := by
  simp [events_log, calls]

theorem mem_calls_call {α : Type} (c d : Call) (k : d.Ret → Prog α) (env : Env)
    (hist : List Call) :
    c ∈ calls (run (.call d k) env hist).events ↔
      c = d ∨ ∃ r, env hist d = .ok r ∧ c ∈ calls (run (k r) env (hist ++ [d])).events := by
  simp only [events_call, calls, List.mem_cons]
  cases env hist d with
  | error why => simp [calls]
  | ok r => simp

theorem mem_calls_address_bind {α : Type} (c : Call) (d : Option Signer) (f : String → Prog α)
    (env : Env) (hist : List Call) :
    c ∈ calls (run ((address d).bind f) env hist).events ↔
      ∃ s, d = some s ∧ c ∈ calls (run (f s.address) env hist).events := by
  cases d with
  | none => simp [address, Prog.bind, events_throw, calls]
  | some s => simp [address, Prog.bind]

theorem ends_start {α : Type} (p : Prog α) (env : Env) (hist : List Call) :
    Ends p env hist [] (run p env hist).events (run p env hist).outcome :=
  ⟨by simp, rfl⟩

theorem ends_pure {α : Type} (a : α) (env : Env) (hist : List Call) (acc evs : List Event)
    (o : Except Thrown α) :
    Ends (.pure a) env hist acc evs o ↔ evs = acc ∧ o = .ok a := by
  simp [Ends, events_pure, outcome_pure, eq_comm]

theorem ends_throw {α : Type} (msg : String) (env : Env) (hist : List Call)
    (acc evs : List Event) (o : Except Thrown α) :
    Ends (.throw msg : Prog α) env hist acc evs o ↔
      evs = acc ∧ o = .error (.exception msg) := by
  simp [Ends, events_throw, outcome_throw, eq_comm]

theorem ends_log {α : Type} (line : String) (k : Prog α) (env : Env) (hist : List Call)
    (acc evs : List Event) (o : Except Thrown α) :
    Ends (.log line k) env hist acc evs o ↔ Ends k env hist (acc ++ [.log line]) evs o := by
  simp [Ends, events_log, outcome_log]

theorem ends_call {α : Type} (c : Call) (k : c.Ret → Prog α) (env : Env) (hist : List Call)
    (acc evs : List Event) (o : Except Thrown α) :
    Ends (.call c k) env hist acc evs o ↔
      (∃ r, env hist c = .ok r ∧ Ends (k r) env (hist ++ [c]) (acc ++ [.call c]) evs o) ∨
      (∃ reason, env hist c = .error reason ∧ evs = acc ++ [.call c] ∧
        o = .error (.rejected c reason)) := by
  simp only [Ends, events_call, outcome_call]
  cases env hist c with
  | error reason => simp [eq_comm]
  | ok r => simp

theorem ends_address_bind {α : Type} (d : Option Signer) (f : String → Prog α) (env : Env)
    (hist : List Call) (acc evs : List Event) (o : Except Thrown α) :
    Ends ((address d).bind f) env hist acc evs o ↔
      (∃ s, d = some s ∧ Ends (f s.address) env hist acc evs o) ∨
      (d = none ∧ evs = acc ∧ o = .error
        (.exception "TypeError: Cannot read properties of undefined (reading 'address')")) := by
  cases d with
  | none => simp [address, Prog.bind, ends_throw]
  | some s => simp [address, Prog.bind]


theorem run_log {α : Type} (line : String) (k : Prog α) (env : Env) (hist : List Call) :
    run (.log line k) env hist = (run k env hist).cons (.log line) := by
  rw [run]

theorem run_call_ok {α : Type} (c : Call) (k : c.Ret → Prog α) (env : Env) (hist : List Call)
    (r : c.Ret) (h : env hist c = .ok r) :
    run (.call c k) env hist = (run (k r) env (hist ++ [c])).cons (.call c) := by
  rw [run, h]

theorem calls_append_error (evs : List Event) (label : String) (e : Thrown) :
    calls (evs ++ [.error label e]) = calls evs := by
  induction evs with
  | nil => rfl
  | cons ev rest ih => cases ev <;> simp [calls, ih]

theorem stdout_append_error (evs : List Event) (label : String) (e : Thrown) :
    stdout (evs ++ [.error label e]) = stdout evs := by
  induction evs with
  | nil => rfl
  | cons ev rest ih => cases ev <;> simp [stdout, ih]

theorem stderr_append (evs more : List Event) :
    stderr (evs ++ more) = stderr evs ++ stderr more := by
  induction evs with
  | nil => rfl
  | cons ev rest ih => cases ev <;> simp [stderr, ih]

theorem entry_ok (env : Env) (u : Unit) (h : (run main env []).outcome = .ok u) :
    entry env = { events := (run main env []).events, exit := 0 } := by
  simp only [entry, h]

theorem entry_error (env : Env) (e : Thrown) (h : (run main env []).outcome = .error e) :
    entry env =
      { events := (run main env []).events ++ [.error "❌ Deployment failed:" e], exit := 1 } := by
  simp only [entry, h]

theorem calls_entry (env : Env) : calls (entry env).events = calls (run main env []).events := by
  cases h : (run main env []).outcome with
  | ok u => rw [entry_ok env u h]
  | error e => rw [entry_error env e h]; exact calls_append_error _ _ _

set_option maxRecDepth 4000 in
/-- A complete run: the signer list is not empty, and the events are those of
`successEvents` for the values the environment answered. -/
theorem complete_run (env : Env) (h : (run main env []).outcome = .ok ()) :
    ∃ s rest t a content rep bal,
      env [] .getSigners = .ok (s :: rest) ∧
      env [.getSigners, .getContractFactory "ERC20Mock"] (tokenDeployment s.address) = .ok t ∧
      env [.getSigners, .getContractFactory "ERC20Mock", tokenDeployment s.address,
        .waitForDeployment (tokenDeployment s.address), .getContractFactory "AIGenDAO"]
        (daoDeployment t) = .ok a ∧
      (run main env []).events = successEvents s.address t a content rep bal := by
  have hrun := ends_start main env []
  rw [h] at hrun
  generalize (run main env []).events = evs at hrun ⊢
  simp only [main, bind_eq_progBind, pure_eq_progPure, Prog.bind, consoleLog, getSigners,
    perform, getContractFactory, ContractFactory.deploy, Contract.waitForDeployment,
    Contract.transfer, Contract.createContent, Contract.vote, Contract.batchVote,
    Contract.getContent, Contract.claimReputationRewards, Contract.creatorReputation,
    Contract.balanceOf, Tx.wait, parseEtherOrThrow, parseEther_supply, parseEther_fund] at hrun
  simp only [ends_log, ends_call, ends_pure, ends_address_bind, reduceCtorEq,
    and_false, exists_false, or_false, List.nil_append, List.cons_append, and_true] at hrun
  obtain ⟨r, h1, s, hs, hrun⟩ := hrun
  rcases r with _ | ⟨s0, rest⟩
  · simp at hs
  simp only [List.head?, Option.some.injEq] at hs
  subst hs
  simp only [List.head?, Option.some.injEq, exists_eq_left'] at hrun
  obtain ⟨r2, h2, t, h3, r4, h4, r5, h5, a, h6, r7, h7, r8, h8, r9, h9, r10, h10, r11, h11,
    r12, h12, r13, h13, r14, h14, r15, h15, r16, h16, content, h17, r18, h18, r19, h19,
    rep, h20, bal, h21, hevs⟩ := hrun
  exact ⟨s0, rest, t, a, content, rep, bal, h1, h3, h6, hevs⟩

/-- A run without any signing account stops at the first read of `deployer.address`. -/
theorem run_without_signer (env : Env) (h : env [] .getSigners = .ok []) :
    run main env [] =
      { events := [.log "🚀 Starting AIGenDAO deployment...", .call .getSigners],
        outcome := .error (.exception
          "TypeError: Cannot read properties of undefined (reading 'address')") } := by
  have hrun := ends_start main env []
  generalize hevs : (run main env []).events = evs at hrun
  generalize hout : (run main env []).outcome = o at hrun
  simp only [main, bind_eq_progBind, pure_eq_progPure, Prog.bind, consoleLog, getSigners,
    perform, getContractFactory, ContractFactory.deploy, Contract.waitForDeployment,
    Contract.transfer, Contract.createContent, Contract.vote, Contract.batchVote,
    Contract.getContent, Contract.claimReputationRewards, Contract.creatorReputation,
    Contract.balanceOf, Tx.wait, parseEtherOrThrow, parseEther_supply, parseEther_fund] at hrun
  simp only [ends_log, ends_call, ends_address_bind, h, Except.ok.injEq, exists_eq_left',
    List.head?, reduceCtorEq, false_and, and_false, exists_false, or_false, false_or,
    List.nil_append, List.cons_append, true_and] at hrun
  obtain ⟨rfl, rfl⟩ := hrun
  cases hr : run main env [] with
  | mk evs o =>
    rw [hr] at hevs hout
    simp only at hevs hout
    rw [hevs, hout]

set_option maxRecDepth 4000 in
/-- The routine throws an exception of its own only when the signer list is empty. -/
theorem exception_run (env : Env) (msg : String)
    (h : (run main env []).outcome = .error (.exception msg)) :
    env [] .getSigners = .ok [] := by
  have hrun := ends_start main env []
  rw [h] at hrun
  generalize (run main env []).events = evs at hrun
  cases h1 : env [] Call.getSigners with
  | error why =>
    simp only [main, bind_eq_progBind, pure_eq_progPure, Prog.bind, consoleLog, getSigners,
      perform, ends_log, ends_call, h1, reduceCtorEq, false_and, exists_false, false_or,
      Except.error.injEq, and_false] at hrun
  | ok r =>
    rcases r with _ | ⟨s, rest⟩
    · rfl
    · simp only [main, bind_eq_progBind, pure_eq_progPure, Prog.bind, consoleLog, getSigners,
        perform, getContractFactory, ContractFactory.deploy, Contract.waitForDeployment,
        Contract.transfer, Contract.createContent, Contract.vote, Contract.batchVote,
        Contract.getContent, Contract.claimReputationRewards, Contract.creatorReputation,
        Contract.balanceOf, Tx.wait, parseEtherOrThrow, parseEther_supply,
        parseEther_fund] at hrun
      simp only [ends_log, ends_call, ends_pure, ends_address_bind, h1, Except.ok.injEq,
        exists_eq_left', List.head?, Option.some.injEq, Except.error.injEq, reduceCtorEq,
        and_false, false_and, exists_false, or_false, false_or] at hrun

/-- Every issued call succeeds exactly when the run does not end with a rejected call. -/
theorem allCallsSucceed_iff (env : Env) :
    AllCallsSucceed env ↔ ∀ c reason, (run main env []).outcome ≠ .error (.rejected c reason) := by
  constructor
  · intro hall c reason hout
    obtain ⟨k, hk, hf⟩ := exists_failing_index main env [] c reason hout
    exact hall k ⟨c, reason, hk, by simpa using hf⟩
  · intro h k hk
    obtain ⟨c, reason, hc, hf⟩ := hk
    exact h c reason (rejected_is_last main env [] k c reason hc (by simpa using hf)).2

/-- With a signing account and no rejected call the run is complete. -/
theorem outcome_ok_of_allCallsSucceed (env : Env) (hall : AllCallsSucceed env) (s : Signer)
    (rest : List Signer) (hs : env [] .getSigners = .ok (s :: rest)) :
    (run main env []).outcome = .ok () := by
  cases hout : (run main env []).outcome with
  | ok u => rfl
  | error e =>
    cases e with
    | rejected c reason => exact absurd hout ((allCallsSucceed_iff env).mp hall c reason)
    | exception msg =>
      have := exception_run env msg hout
      rw [hs] at this
      simp at this


/-! ## The properties -/

set_option maxRecDepth 4000 in
/-- C1 (evaluation of the code): the funding transfer is the one transaction the routine never
waits on.  In no environment is `wait` invoked on the response of a `transfer`; on the sample
node, where every call succeeds, the call issued right after the transfer (step 7) is the first
`createContent` (step 8), every other transaction and both deployments are directly followed
by their wait, and the run ends with status 0. -/
theorem transfer_never_awaited :
    (∀ (env : Env) (tok rcp : String) (amt : Nat),
      Call.wait (.transfer tok rcp amt) ∉ calls (run main env []).events) ∧
    (calls (run main sampleEnv []).events)[7]? =
      some (.transfer tokenAddress daoAddress (10 ^ 23)) ∧
    (calls (run main sampleEnv []).events)[8]? = some (firstCreation daoAddress) ∧
    calls (run main sampleEnv []).events =
      successCalls deployerAccount.address tokenAddress daoAddress ∧
    (entry sampleEnv).exit = 0 := by
  refine ⟨?_, by decide, by decide, by decide, by decide⟩
  intro env tok rcp amt h
  simp only [main, bind_eq_progBind, pure_eq_progPure, Prog.bind, consoleLog, getSigners,
    perform, getContractFactory, ContractFactory.deploy, Contract.waitForDeployment,
    Contract.transfer, Contract.createContent, Contract.vote, Contract.batchVote,
    Contract.getContent, Contract.claimReputationRewards, Contract.creatorReputation,
    Contract.balanceOf, Tx.wait, parseEtherOrThrow, parseEther_supply, parseEther_fund] at h
  simp only [mem_calls_log, mem_calls_call, mem_calls_pure, mem_calls_address_bind,
    Call.wait.injEq, reduceCtorEq, false_or, or_false, and_false, exists_false] at h

/-- C2: when the call of step `k` is rejected, it is the last call issued (`k + 1` calls in
all), the process exits with status 1, and the calls issued are the first `k + 1` calls of the
run in any environment that answers the earlier steps alike, in particular one in which every
call succeeds. -/
theorem first_failure_aborts (env : Env) (k : Nat) (hk : FailsAt env k) :
    (calls (entry env).events).length = k + 1 ∧
    (entry env).exit = 1 ∧
    ∀ env' : Env, (∀ hist c, hist.length < k → env' hist c = env hist c) →
      calls (entry env).events = (calls (entry env').events).take (k + 1) := by
  obtain ⟨c, reason, hc, hf⟩ := hk
  obtain ⟨hlen, hout⟩ := rejected_is_last main env [] k c reason hc (by simpa using hf)
  refine ⟨by rw [calls_entry]; exact hlen, by rw [entry_error env _ hout], ?_⟩
  intro env' hagree
  rw [calls_entry, calls_entry]
  exact calls_take_of_agree main env env' [] k c reason (by simpa using hagree) hlen hout

/-- Witness for C2: `claimReputationRewards`, the call of step 17, is rejected; eighteen calls
are issued, the first eighteen of the complete run on the sample node. -/
theorem first_failure_aborts_witness :
    FailsAt claimFailsEnv 17 ∧
    (calls (entry claimFailsEnv).events).length = 18 ∧
    (entry claimFailsEnv).exit = 1 ∧
    calls (entry claimFailsEnv).events = (calls (entry sampleEnv).events).take 18 := by
  have hk : FailsAt claimFailsEnv 17 :=
    ⟨.claimReputationRewards daoAddress, "execution reverted", by decide, rfl⟩
  have h := first_failure_aborts claimFailsEnv 17 hk
  refine ⟨hk, h.1, h.2.1, h.2.2 sampleEnv ?_⟩
  intro hist c hlt
  have hne : hist.length ≠ 17 := by omega
  simp [claimFailsEnv, failingAt, hne]

/-- C3 (counterexample): on a node without signing accounts every issued call succeeds, yet
the process exits with status 1. -/
theorem exit_one_without_failed_call :
    AllCallsSucceed noSignersEnv ∧ (entry noSignersEnv).exit = 1 := by
  have hrun := run_without_signer noSignersEnv rfl
  refine ⟨?_, ?_⟩
  · rw [allCallsSucceed_iff, hrun]
    intro c reason h
    simp at h
  · rw [entry_error noSignersEnv _ (by rw [hrun])]

/-- C3 (amended): the exit status is 0 exactly when `main` runs to its last statement without
an error being thrown, that is, exactly when every issued call succeeds and the signer list is
not empty; it is 1 exactly when some call is rejected or the signer list is empty. -/
theorem exit_status_characterised (env : Env) :
    ((entry env).exit = 0 ↔ (run main env []).outcome = .ok ()) ∧
    ((entry env).exit = 0 ↔
      AllCallsSucceed env ∧ ∃ s rest, env [] .getSigners = .ok (s :: rest)) ∧
    ((entry env).exit = 1 ↔ (∃ k, FailsAt env k) ∨ env [] .getSigners = .ok []) := by
  cases hout : (run main env []).outcome with
  | ok u =>
    obtain ⟨s, rest, t, a, content, rep, bal, hs, -, -, -⟩ := complete_run env hout
    have hall : AllCallsSucceed env := by
      rw [allCallsSucceed_iff, hout]
      intro c reason h
      simp at h
    rw [entry_ok env u hout]
    refine ⟨by simp, by simpa using ⟨hall, s, rest, hs⟩, ?_⟩
    simp only [zero_ne_one, false_iff, not_or, not_exists]
    exact ⟨hall, by rw [hs]; simp⟩
  | error e =>
    rw [entry_error env e hout]
    refine ⟨by simp, ?_, ?_⟩
    · simp only [one_ne_zero, false_iff, not_and, not_exists]
      intro hall s rest hs
      have := outcome_ok_of_allCallsSucceed env hall s rest hs
      rw [hout] at this
      simp at this
    · simp only [true_iff]
      cases e with
      | rejected c reason =>
        obtain ⟨k, hk, hf⟩ := exists_failing_index main env [] c reason hout
        exact Or.inl ⟨k, c, reason, hk, by simpa using hf⟩
      | exception msg => exact Or.inr (exception_run env msg hout)


/-- C4: with an empty signer list `getSigners` succeeds, the first read of `deployer.address`
throws, and the process ends with status 1 after `getSigners` as its only call: no contract
factory is requested and nothing is deployed.  With a non-empty list the account printed and
used is the first one, and the rest of the list has no influence on the run. -/
theorem fail_fast_without_signer (env : Env) :
    (env [] .getSigners = .ok [] →
      entry env =
        { events :=
            [ .log "🚀 Starting AIGenDAO deployment...",
              .call .getSigners,
              .error "❌ Deployment failed:" (.exception
                "TypeError: Cannot read properties of undefined (reading 'address')") ],
          exit := 1 }) ∧
    (∀ s rest, env [] .getSigners = .ok (s :: rest) →
      (run main env []).events.take 3 =
        [ .log "🚀 Starting AIGenDAO deployment...",
          .call .getSigners,
          .log ("🔑 Using account: " ++ s.address) ] ∧
      (∀ args, Call.deploy "ERC20Mock" args ∈ calls (run main env []).events →
        args = [.str "AIGen Reward", .str "AIGR", .str s.address, .uint (10 ^ 24)]) ∧
      (∀ dao account, Call.creatorReputation dao account ∈ calls (run main env []).events →
        account = s.address) ∧
      (∀ token account, Call.balanceOf token account ∈ calls (run main env []).events →
        account = s.address) ∧
      ∀ (env' : Env) (rest' : List Signer), env' [] .getSigners = .ok (s :: rest') →
        (∀ hist c, hist ≠ [] → env' hist c = env hist c) → entry env' = entry env) := by
  refine ⟨?_, ?_⟩
  · intro h
    have hrun := run_without_signer env h
    rw [entry_error env _ (by rw [hrun]), hrun]
    rfl
  · intro s rest hs
    refine ⟨?_, ?_, ?_, ?_, ?_⟩
    · simp only [main, bind_eq_progBind, pure_eq_progPure, Prog.bind, consoleLog, getSigners,
        perform, events_log, events_call, hs, List.head?, address]
      rfl
    · intro args h
      simp only [main, bind_eq_progBind, pure_eq_progPure, Prog.bind, consoleLog, getSigners,
        perform, getContractFactory, ContractFactory.deploy, Contract.waitForDeployment,
        Contract.transfer, Contract.createContent, Contract.vote, Contract.batchVote,
        Contract.getContent, Contract.claimReputationRewards, Contract.creatorReputation,
        Contract.balanceOf, Tx.wait, parseEtherOrThrow, parseEther_supply, parseEther_fund] at h
      simp only [mem_calls_log, mem_calls_call, mem_calls_pure, mem_calls_address_bind, hs,
        Except.ok.injEq, exists_eq_left', List.head?, Option.some.injEq,
        Call.deploy.injEq, true_and, String.reduceEq, reduceCtorEq, false_or, or_false, and_false, false_and,
        exists_false] at h
      obtain ⟨_, _, rfl⟩ := h
      rfl
    · intro dao account h
      simp only [main, bind_eq_progBind, pure_eq_progPure, Prog.bind, consoleLog, getSigners,
        perform, getContractFactory, ContractFactory.deploy, Contract.waitForDeployment,
        Contract.transfer, Contract.createContent, Contract.vote, Contract.batchVote,
        Contract.getContent, Contract.claimReputationRewards, Contract.creatorReputation,
        Contract.balanceOf, Tx.wait, parseEtherOrThrow, parseEther_supply, parseEther_fund] at h
      simp only [mem_calls_log, mem_calls_call, mem_calls_pure, mem_calls_address_bind, hs,
        Except.ok.injEq, exists_eq_left', List.head?, Option.some.injEq,
        Call.creatorReputation.injEq, reduceCtorEq, false_or, or_false, and_false, false_and,
        exists_false] at h
      obtain ⟨r2, h2, t, h3, r4, h4, r5, h5, a, h6, r7, h7, r8, h8, r9, h9, r10, h10, r11, h11,
        r12, h12, r13, h13, r14, h14, r15, h15, r16, h16, content, h17, r18, h18, r19, h19,
        -, hacc⟩ := h
      exact hacc
    · intro token account h
      simp only [main, bind_eq_progBind, pure_eq_progPure, Prog.bind, consoleLog, getSigners,
        perform, getContractFactory, ContractFactory.deploy, Contract.waitForDeployment,
        Contract.transfer, Contract.createContent, Contract.vote, Contract.batchVote,
        Contract.getContent, Contract.claimReputationRewards, Contract.creatorReputation,
        Contract.balanceOf, Tx.wait, parseEtherOrThrow, parseEther_supply, parseEther_fund] at h
      simp only [mem_calls_log, mem_calls_call, mem_calls_pure, mem_calls_address_bind, hs,
        Except.ok.injEq, exists_eq_left', List.head?, Option.some.injEq,
        Call.balanceOf.injEq, reduceCtorEq, false_or, or_false, and_false, false_and,
        exists_false] at h
      obtain ⟨r2, h2, t, h3, r4, h4, r5, h5, a, h6, r7, h7, r8, h8, r9, h9, r10, h10, r11, h11,
        r12, h12, r13, h13, r14, h14, r15, h15, r16, h16, content, h17, r18, h18, r19, h19,
        rep, h20, -, hacc⟩ := h
      exact hacc
    · intro env' rest' hs' hagree
      have hrun : run main env' [] = run main env [] := by
        simp only [main, bind_eq_progBind, pure_eq_progPure, Prog.bind, consoleLog, getSigners,
          perform]
        rw [run_log, run_log, run_call_ok _ _ env' [] _ hs', run_call_ok _ _ env [] _ hs]
        simp only [List.head?]
        rw [run_congr _ env env' ([] ++ [Call.getSigners])]
        intro h d hlen
        exact hagree h d (by rintro rfl; simp at hlen)
      simp only [entry, hrun]

set_option maxRecDepth 4000 in
/-- Witness for C4: the node without accounts, and the sample node with two accounts, whose
second account can be removed without changing the outcome. -/
theorem fail_fast_without_signer_witness :
    noSignersEnv [] .getSigners = .ok [] ∧ (entry noSignersEnv).exit = 1 ∧
    calls (entry noSignersEnv).events = [.getSigners] ∧
    sampleEnv [] .getSigners = .ok [deployerAccount, secondAccount] ∧
    (∀ args, Call.deploy "ERC20Mock" args ∈ calls (run main sampleEnv []).events →
      args = [.str "AIGen Reward", .str "AIGR", .str deployerAccount.address, .uint (10 ^ 24)]) ∧
    entry (withSigners [deployerAccount] sampleEnv) = entry sampleEnv := by
  have h0 := (fail_fast_without_signer noSignersEnv).1 rfl
  have h1 := (fail_fast_without_signer sampleEnv).2 deployerAccount [secondAccount] rfl
  refine ⟨rfl, by rw [h0], by rw [h0]; rfl, rfl, h1.2.1, ?_⟩
  exact h1.2.2.2.2 _ [] rfl (fun hist c hne => by
    cases hist with
    | nil => exact absurd rfl hne
    | cons d rest => rfl)


/-- C5 (counterexample): on a node without signing accounts every issued call succeeds, and
the routine issues no contract-level call at all. -/
theorem no_contract_call_without_signer :
    AllCallsSucceed noSignersEnv ∧
    (calls (run main noSignersEnv []).events).filter contractLevel = [] ∧
    ∀ deployer token dao,
      (calls (run main noSignersEnv []).events).filter contractLevel ≠
        contractCalls deployer token dao := by
  have hrun := run_without_signer noSignersEnv rfl
  refine ⟨?_, by rw [hrun]; rfl, ?_⟩
  · rw [allCallsSucceed_iff, hrun]
    intro c reason h
    simp at h
  · intro deployer token dao
    rw [hrun]
    simp [calls, contractCalls, contractLevel, List.filter]

/-- C5 (amended): when every issued call succeeds and the signer list is not empty, the calls
of the run are exactly those of `successCalls`, for the first signer's address and the two
addresses answered to the deployments; its contract-level calls are exactly the eleven of
`contractCalls`, in that order, and each wait stands right after the transaction it confirms,
so that the second `createContent` follows the wait on the first. -/
theorem call_sequence_of_complete_run (env : Env) (hall : AllCallsSucceed env) (s : Signer)
    (rest : List Signer) (hs : env [] .getSigners = .ok (s :: rest)) :
    ∃ token dao,
      env [.getSigners, .getContractFactory "ERC20Mock"] (tokenDeployment s.address) =
        .ok token ∧
      env [.getSigners, .getContractFactory "ERC20Mock", tokenDeployment s.address,
        .waitForDeployment (tokenDeployment s.address), .getContractFactory "AIGenDAO"]
        (daoDeployment token) = .ok dao ∧
      calls (run main env []).events = successCalls s.address token dao ∧
      (calls (run main env []).events).filter contractLevel =
        contractCalls s.address token dao := by
  have hout := outcome_ok_of_allCallsSucceed env hall s rest hs
  obtain ⟨s', rest', t, a, content, rep, bal, hs', ht, ha, hevs⟩ := complete_run env hout
  rw [hs] at hs'
  simp only [Except.ok.injEq, List.cons.injEq] at hs'
  obtain ⟨rfl, rfl⟩ := hs'
  refine ⟨t, a, ht, ha, ?_, ?_⟩
  · rw [hevs]; rfl
  · rw [hevs]; rfl

/-- Witness for C5: the sample node. -/
theorem call_sequence_of_complete_run_witness :
    AllCallsSucceed sampleEnv ∧
    sampleEnv [] .getSigners = .ok [deployerAccount, secondAccount] ∧
    ∃ token dao,
      sampleEnv [.getSigners, .getContractFactory "ERC20Mock"]
        (tokenDeployment deployerAccount.address) = .ok token ∧
      sampleEnv [.getSigners, .getContractFactory "ERC20Mock",
        tokenDeployment deployerAccount.address,
        .waitForDeployment (tokenDeployment deployerAccount.address),
        .getContractFactory "AIGenDAO"] (daoDeployment token) = .ok dao ∧
      calls (run main sampleEnv []).events = successCalls deployerAccount.address token dao ∧
      (calls (run main sampleEnv []).events).filter contractLevel =
        contractCalls deployerAccount.address token dao := by
  have hall : AllCallsSucceed sampleEnv := by
    rw [allCallsSucceed_iff]
    intro c reason h
    have hok : (run main sampleEnv []).outcome = .ok () := rfl
    rw [hok] at h
    simp at h
  exact ⟨hall, rfl, call_sequence_of_complete_run sampleEnv hall deployerAccount [secondAccount] rfl⟩

set_option maxRecDepth 4000 in
/-- C6: every deployment of the reward token that the routine issues carries exactly the
arguments ("AIGen Reward", "AIGR", address of the first signer, 10^24), where 10^24 is
`parseEther "1000000"`, that is 1,000,000 whole tokens at 18 decimals.  The events up to and
including the wait for the deployment are fixed by the deployer address alone; the address
answered to the deployment first appears in the line written after that wait has returned,
and not at all when the wait is rejected. -/
theorem reward_token_deployment (env : Env) (args : List Arg)
    (hdep : Call.deploy "ERC20Mock" args ∈ calls (run main env []).events) :
    parseEther "1000000" = some (1000000 * 10 ^ 18) ∧
    1000000 * 10 ^ 18 = 10 ^ 24 ∧
    ∃ s rest, env [] .getSigners = .ok (s :: rest) ∧
      args = [.str "AIGen Reward", .str "AIGR", .str s.address, .uint (10 ^ 24)] ∧
      ∀ token : String,
        env [.getSigners, .getContractFactory "ERC20Mock"] (tokenDeployment s.address) =
          .ok token →
        (∀ reason,
          env [.getSigners, .getContractFactory "ERC20Mock", tokenDeployment s.address]
            (.waitForDeployment (tokenDeployment s.address)) = .error reason →
          (run main env []).events = tokenStageEvents s.address) ∧
        (∀ u,
          env [.getSigners, .getContractFactory "ERC20Mock", tokenDeployment s.address]
            (.waitForDeployment (tokenDeployment s.address)) = .ok u →
          ∃ more, (run main env []).events =
            tokenStageEvents s.address ++
              .log ("✅ Reward Token deployed to: " ++ token) :: more) := by
  refine ⟨by decide, by norm_num, ?_⟩
  simp only [main, bind_eq_progBind, pure_eq_progPure, Prog.bind, consoleLog, getSigners,
    perform, getContractFactory, ContractFactory.deploy, Contract.waitForDeployment,
    Contract.transfer, Contract.createContent, Contract.vote, Contract.batchVote,
    Contract.getContent, Contract.claimReputationRewards, Contract.creatorReputation,
    Contract.balanceOf, Tx.wait, parseEtherOrThrow, parseEther_supply, parseEther_fund]
    at hdep ⊢
  cases hs : env [] Call.getSigners with
  | error why =>
    simp only [mem_calls_log, mem_calls_call, hs, reduceCtorEq, false_and, exists_false,
      false_or] at hdep
  | ok r =>
    rcases r with _ | ⟨s, rest⟩
    · simp only [mem_calls_log, mem_calls_call, mem_calls_address_bind, hs, Except.ok.injEq,
        exists_eq_left', List.head?, reduceCtorEq, false_and, exists_false, false_or] at hdep
    · simp only [mem_calls_log, mem_calls_call, mem_calls_pure, mem_calls_address_bind, hs,
        Except.ok.injEq, exists_eq_left', List.head?, Option.some.injEq, Call.deploy.injEq,
        true_and, String.reduceEq, reduceCtorEq, false_or, or_false, and_false, false_and,
        exists_false, List.nil_append] at hdep
      obtain ⟨u, hf, rfl⟩ := hdep
      refine ⟨s, rest, rfl, rfl, ?_⟩
      intro token ht
      simp only [tokenDeployment] at ht ⊢
      refine ⟨?_, ?_⟩
      · intro reason hw
        simp only [events_log, events_call, hs, hf, ht, hw, List.head?, address, Prog.bind,
          List.nil_append, List.cons_append, tokenStageEvents, tokenDeployment]
      · intro v hw
        simp only [events_log, events_call, hs, hf, ht, hw, List.head?, address, Prog.bind,
          List.nil_append, List.cons_append, tokenStageEvents, tokenDeployment]
        exact ⟨_, rfl⟩

/-- Witness for C6: the deployment issued on the sample node. -/
theorem reward_token_deployment_witness :
    Call.deploy "ERC20Mock" [.str "AIGen Reward", .str "AIGR", .str deployerAccount.address,
      .uint (10 ^ 24)] ∈ calls (run main sampleEnv []).events ∧
    parseEther "1000000" = some (1000000 * 10 ^ 18) ∧
    1000000 * 10 ^ 18 = 10 ^ 24 := by
  have hmem : Call.deploy "ERC20Mock" [.str "AIGen Reward", .str "AIGR",
      .str deployerAccount.address, .uint (10 ^ 24)] ∈ calls (run main sampleEnv []).events := by
    decide
  have h := reward_token_deployment sampleEnv _ hmem
  exact ⟨hmem, h.1, h.2.1⟩


/-- In the ERC20 model a transfer from the holder of the whole supply to another account
succeeds when the amount is within the supply; the recipient then holds the amount and the
holder the remainder. -/
theorem erc20_transfer_from_holder (name symbol holder rcp : String) (supply amt : Nat)
    (hne : rcp ≠ holder) (hle : amt ≤ supply) :
    ∃ funded, (ERC20.construct name symbol holder supply).transfer holder rcp amt = some funded ∧
      funded.balanceOf rcp = amt ∧ funded.balanceOf holder + amt = supply := by
  have hne' : ¬ holder = rcp := fun h => hne h.symm
  simp only [ERC20.transfer, ERC20.construct, if_true]
  rw [if_neg (by omega)]
  refine ⟨_, rfl, ?_, ?_⟩
  · simp [ERC20.balanceOf, hne]
  · simp only [ERC20.balanceOf, if_neg hne', if_true]
    omega

set_option maxRecDepth 4000 in
/-- C7: every `transfer` the routine issues passes the amount `parseEther "100000"`, that is
10^23 = 100,000 * 10^18, to the address answered to the DAO deployment, on the token
answered to the token deployment by the first signer.  In the ERC20 model, for a deployer
other than the DAO who holds the whole initial supply of 10^24, this transfer succeeds, leaves
the DAO with exactly 100,000 * 10^decimals, lowers the deployer's balance by the same amount
and keeps the sum of the two balances. -/
theorem funding_transfer (env : Env) (tok rcp : String) (amt : Nat)
    (hfund : Call.transfer tok rcp amt ∈ calls (run main env []).events) :
    parseEther "100000" = some amt ∧
    amt = 10 ^ 23 ∧
    ∃ s rest, env [] .getSigners = .ok (s :: rest) ∧
      env [.getSigners, .getContractFactory "ERC20Mock"] (tokenDeployment s.address) =
        .ok tok ∧
      env [.getSigners, .getContractFactory "ERC20Mock", tokenDeployment s.address,
        .waitForDeployment (tokenDeployment s.address), .getContractFactory "AIGenDAO"]
        (daoDeployment tok) = .ok rcp ∧
      (rcp ≠ s.address →
        ∃ funded,
          (ERC20.construct "AIGen Reward" "AIGR" s.address (10 ^ 24)).transfer
            s.address rcp amt = some funded ∧
          funded.balanceOf rcp = 100000 * 10 ^ funded.decimals ∧
          funded.balanceOf s.address + amt =
            (ERC20.construct "AIGen Reward" "AIGR" s.address (10 ^ 24)).balanceOf s.address ∧
          funded.balanceOf s.address + funded.balanceOf rcp =
            (ERC20.construct "AIGen Reward" "AIGR" s.address (10 ^ 24)).balanceOf s.address +
              (ERC20.construct "AIGen Reward" "AIGR" s.address (10 ^ 24)).balanceOf rcp) := by
  simp only [main, bind_eq_progBind, pure_eq_progPure, Prog.bind, consoleLog, getSigners,
    perform, getContractFactory, ContractFactory.deploy, Contract.waitForDeployment,
    Contract.transfer, Contract.createContent, Contract.vote, Contract.batchVote,
    Contract.getContent, Contract.claimReputationRewards, Contract.creatorReputation,
    Contract.balanceOf, Tx.wait, parseEtherOrThrow, parseEther_supply, parseEther_fund]
    at hfund
  simp only [mem_calls_log, mem_calls_call, mem_calls_pure, mem_calls_address_bind,
    reduceCtorEq, false_or, or_false, and_false, exists_false, Call.transfer.injEq,
    List.nil_append, List.cons_append] at hfund
  obtain ⟨r, h1, s, hs, r2, h2, s', hs', t, h3, r4, h4, r5, h5, a, h6, r7, h7, rfl, rfl, rfl⟩ :=
    hfund
  rcases r with _ | ⟨s0, rest⟩
  · simp at hs
  simp only [List.head?, Option.some.injEq] at hs hs'
  subst hs
  subst hs'
  refine ⟨parseEther_fund, rfl, s0, rest, h1, h3, h6, ?_⟩
  intro hne
  obtain ⟨funded, hf, hr, hd⟩ :=
    erc20_transfer_from_holder "AIGen Reward" "AIGR" s0.address rcp (10 ^ 24) (10 ^ 23) hne
      (by norm_num)
  refine ⟨funded, hf, ?_, ?_, ?_⟩
  · rw [hr]; simp only [ERC20.decimals]; norm_num
  · rw [hd]; simp [ERC20.balanceOf, ERC20.construct]
  · rw [hr]
    have h0 : (ERC20.construct "AIGen Reward" "AIGR" s0.address (10 ^ 24)).balanceOf rcp = 0 := by
      simp [ERC20.balanceOf, ERC20.construct, hne]
    have h1 : (ERC20.construct "AIGen Reward" "AIGR" s0.address (10 ^ 24)).balanceOf s0.address
        = 10 ^ 24 := by
      simp [ERC20.balanceOf, ERC20.construct]
    rw [h0, h1, add_zero]
    exact hd

/-- Witness for C7: the transfer issued on the sample node. -/
theorem funding_transfer_witness :
    Call.transfer tokenAddress daoAddress (10 ^ 23) ∈ calls (run main sampleEnv []).events ∧
    parseEther "100000" = some (10 ^ 23) ∧
    ∃ funded,
      (ERC20.construct "AIGen Reward" "AIGR" deployerAccount.address (10 ^ 24)).transfer
        deployerAccount.address daoAddress (10 ^ 23) = some funded ∧
      funded.balanceOf daoAddress = 100000 * 10 ^ funded.decimals := by
  have hmem : Call.transfer tokenAddress daoAddress (10 ^ 23) ∈
      calls (run main sampleEnv []).events := by decide
  obtain ⟨hp, -, s, rest, hs, -, -, hmodel⟩ := funding_transfer sampleEnv _ _ _ hmem
  have hsig : sampleEnv [] .getSigners = .ok [deployerAccount, secondAccount] := rfl
  rw [hsig] at hs
  simp only [Except.ok.injEq, List.cons.injEq] at hs
  obtain ⟨rfl, -⟩ := hs
  obtain ⟨funded, h1, h2, -, -⟩ := hmodel (by decide)
  exact ⟨hmem, hp, funded, h1, h2⟩


/-- In the DAO model, after the first sixteen calls of the demo the two entries have ids 0
and 1, with two votes and one vote. -/
theorem dao_after_votes (deployer token dao : String) :
    DAO.replay ((successCalls deployer token dao).take 16) =
      some { contents :=
        [ { prompt := "A futuristic cityscape at sunset", aiModel := "Stable Diffusion v2.1",
            ipfsHash := "QmXyZ123...abc", votes := 2 },
          { prompt := "Cyberpunk character portrait", aiModel := "Midjourney v5",
            ipfsHash := "QmAbC456...def", votes := 1 } ] } := by
  rfl

set_option maxRecDepth 4000 in
/-- C8: on an environment that answers `getContent` as the DAO model does, every read the
routine issues is `getContent(0)` and is its 17th call, after the sixteen calls up to the
confirmed batch vote.  At that point the model of the freshly deployed DAO holds the first
created item under id 0 with 2 votes and the second under id 1 with 1 vote, the read is
answered with ("A futuristic cityscape at sunset", "Stable Diffusion v2.1", "QmXyZ123...abc",
2), and the routine prints exactly that record. -/
theorem content_read_back (env : Env) (hdao : FollowsDao env) (dao : String) (id : Nat)
    (hread : Call.getContent dao id ∈ calls (run main env []).events) :
    id = 0 ∧
    ∃ s rest tok, env [] .getSigners = .ok (s :: rest) ∧
      (calls (run main env []).events).take 17 = (successCalls s.address tok dao).take 17 ∧
      DAO.replay ((successCalls s.address tok dao).take 16) =
        some { contents :=
          [ { prompt := "A futuristic cityscape at sunset", aiModel := "Stable Diffusion v2.1",
              ipfsHash := "QmXyZ123...abc", votes := 2 },
            { prompt := "Cyberpunk character portrait", aiModel := "Midjourney v5",
              ipfsHash := "QmAbC456...def", votes := 1 } ] } ∧
      env ((successCalls s.address tok dao).take 16) (.getContent dao 0) =
        .ok { prompt := "A futuristic cityscape at sunset", aiModel := "Stable Diffusion v2.1",
              ipfsHash := "QmXyZ123...abc", votes := 2 } ∧
      Event.log ("📋 Content 0 Details:\n  Prompt: A futuristic cityscape at sunset"
        ++ "\n  AI Model: Stable Diffusion v2.1\n  IPFS Hash: QmXyZ123...abc\n  Votes: 2")
        ∈ (run main env []).events := by
  simp only [main, bind_eq_progBind, pure_eq_progPure, Prog.bind, consoleLog, getSigners,
    perform, getContractFactory, ContractFactory.deploy, Contract.waitForDeployment,
    Contract.transfer, Contract.createContent, Contract.vote, Contract.batchVote,
    Contract.getContent, Contract.claimReputationRewards, Contract.creatorReputation,
    Contract.balanceOf, Tx.wait, parseEtherOrThrow, parseEther_supply, parseEther_fund]
    at hread ⊢
  simp only [mem_calls_log, mem_calls_call, mem_calls_pure, mem_calls_address_bind,
    reduceCtorEq, false_or, or_false, and_false, exists_false, Call.getContent.injEq,
    List.nil_append, List.cons_append] at hread
  obtain ⟨r, h1, s, hs, r2, h2, s', hs', t, h3, r4, h4, r5, h5, a, h6, r7, h7, r8, h8, r9, h9,
    r10, h10, r11, h11, r12, h12, r13, h13, r14, h14, r15, h15, r16, h16, rfl, rfl⟩ := hread
  rcases r with _ | ⟨s0, rest⟩
  · simp at hs
  simp only [List.head?, Option.some.injEq] at hs hs'
  subst hs
  subst hs'
  have hrep := dao_after_votes s0.address t dao
  have h17 : env ((successCalls s0.address t dao).take 16) (.getContent dao 0) =
      .ok { prompt := "A futuristic cityscape at sunset", aiModel := "Stable Diffusion v2.1",
            ipfsHash := "QmXyZ123...abc", votes := 2 } := by
    rw [hdao, DAO.read, hrep]
    rfl
  refine ⟨rfl, s0, rest, t, h1, ?_, hrep, h17, ?_⟩
  · simp only [successCalls, tokenDeployment, daoDeployment, firstCreation, secondCreation,
      List.take_succ_cons, List.take_zero] at h17 ⊢
    simp only [events_log, events_call, calls, h1, h2, h3, h4, h5, h6, h7, h8, h9, h10, h11,
      h12, h13, h14, h15, h16, h17, List.head?, address, Prog.bind, List.nil_append,
      List.cons_append, List.take_succ_cons, List.take_zero]
  · simp only [successCalls, tokenDeployment, daoDeployment, firstCreation, secondCreation,
      List.take_succ_cons, List.take_zero] at h17
    refine List.getElem?_mem (n := 34) ?_
    simp only [events_log, events_call, h1, h2, h3, h4, h5, h6, h7, h8, h9, h10, h11,
      h12, h13, h14, h15, h16, h17, List.head?, address, Prog.bind, List.nil_append,
      List.cons_append, List.getElem?_cons_succ, List.getElem?_cons_zero]
    rfl

/-- Witness for C8: the sample node reads content from the DAO model. -/
theorem content_read_back_witness :
    FollowsDao sampleEnv ∧
    Call.getContent daoAddress 0 ∈ calls (run main sampleEnv []).events ∧
    Event.log ("📋 Content 0 Details:\n  Prompt: A futuristic cityscape at sunset"
      ++ "\n  AI Model: Stable Diffusion v2.1\n  IPFS Hash: QmXyZ123...abc\n  Votes: 2")
      ∈ (run main sampleEnv []).events := by
  have hdao : FollowsDao sampleEnv := fun hist dao id => rfl
  have hmem : Call.getContent daoAddress 0 ∈ calls (run main sampleEnv []).events := by decide
  obtain ⟨-, s, rest, tok, -, -, -, -, hlog⟩ := content_read_back sampleEnv hdao _ _ hmem
  exact ⟨hdao, hmem, hlog⟩


set_option maxRecDepth 4000 in
/-- C9 (counterexample): on the node where `claimReputationRewards` reverts, the process exits
with status 1 and its standard output reports the success of every earlier step: the lines
marked ✅ for both deployments, the funding, both creations, the vote and the batch vote. -/
theorem earlier_successes_reported :
    (run main claimFailsEnv []).outcome =
      .error (.rejected (.claimReputationRewards daoAddress) "execution reverted") ∧
    (entry claimFailsEnv).exit = 1 ∧
    stdout (entry claimFailsEnv).events =
      [ "🚀 Starting AIGenDAO deployment...",
        "🔑 Using account: 0xf39Fd6e51aad88F6F4ce6aB8827279cffFb92266",
        "🪙 Deploying reward token...",
        "✅ Reward Token deployed to: 0x5FbDB2315678afecb367f032d93F642f64180aa3",
        "🖼️ Deploying AIGenDAO contract...",
        "✅ AIGenDAO deployed to: 0xe7f1725E7734CE288F8367e1Bb143E90bb3F0512",
        "💰 Funding contract with reward tokens...",
        "✅ Contract funded with 100000.0 tokens",
        "🎬 Starting demo interactions...",
        "📝 Creating content...",
        "✅ Content created (Token ID: 0)",
        "✅ Content created (Token ID: 1)",
        "🗳️ Voting on content...",
        "✅ Voted on Token ID 0",
        "🗳️ Batch voting...",
        "✅ Batch voted on Token IDs [0, 1]",
        "🔍 Checking content details...",
        "📋 Content 0 Details:\n  Prompt: A futuristic cityscape at sunset\n  AI Model: Stable Diffusion v2.1\n  IPFS Hash: QmXyZ123...abc\n  Votes: 2",
        "🏆 Claiming reputation rewards..." ] := by
  refine ⟨rfl, by decide, by decide⟩

set_option maxRecDepth 4000 in
/-- C9 (amended): when the routine fails, the handler adds exactly one report, the failure
with the fixed label "❌ Deployment failed:" on the error stream, as the last event of the
run, and the process exits with status 1; nothing else is written to the error stream and no
summary of the earlier steps is added.  The progress lines already written to standard
output remain: when `claimReputationRewards` is rejected they are the lines of
`progressLines`, the content record and the announcement of the claim, and no later line. -/
theorem failure_report (env : Env) (e : Thrown)
    (hfail : (run main env []).outcome = .error e) :
    (entry env).exit = 1 ∧
    (entry env).events = (run main env []).events ++ [.error "❌ Deployment failed:" e] ∧
    stderr (entry env).events = [("❌ Deployment failed:", e)] ∧
    stdout (entry env).events = stdout (run main env []).events ∧
    (∀ dao reason, e = .rejected (.claimReputationRewards dao) reason →
      ∃ deployer token content,
        stdout (entry env).events =
          progressLines deployer token dao ++
            [detailsLine content, "🏆 Claiming reputation rewards..."]) := by
  rw [entry_error env e hfail]
  refine ⟨rfl, rfl, ?_, stdout_append_error _ _ _, ?_⟩
  · rw [stderr_append, stderr_run]
    rfl
  · rintro dao reason rfl
    simp only [stdout_append_error]
    have hrun := ends_start main env []
    rw [hfail] at hrun
    generalize (run main env []).events = evs at hrun ⊢
    simp only [main, bind_eq_progBind, pure_eq_progPure, Prog.bind, consoleLog, getSigners,
      perform, getContractFactory, ContractFactory.deploy, Contract.waitForDeployment,
      Contract.transfer, Contract.createContent, Contract.vote, Contract.batchVote,
      Contract.getContent, Contract.claimReputationRewards, Contract.creatorReputation,
      Contract.balanceOf, Tx.wait, parseEtherOrThrow, parseEther_supply, parseEther_fund]
      at hrun
    simp only [ends_log, ends_call, ends_pure, ends_address_bind, Except.error.injEq,
      Thrown.rejected.injEq, Call.claimReputationRewards.injEq, reduceCtorEq, and_false,
      false_and, exists_false, or_false, false_or, List.nil_append, List.cons_append]
      at hrun
    obtain ⟨r, h1, s, hs, r2, h2, s', hs', t, h3, r4, h4, r5, h5, a, h6, r7, h7, r8, h8, r9, h9,
      r10, h10, r11, h11, r12, h12, r13, h13, r14, h14, r15, h15, r16, h16, content, h17,
      why, h18, rfl, rfl, rfl⟩ := hrun
    exact ⟨s.address, t, content, rfl⟩

/-- Witness for C9: the node on which `claimReputationRewards` reverts. -/
theorem failure_report_witness :
    (run main claimFailsEnv []).outcome =
      .error (.rejected (.claimReputationRewards daoAddress) "execution reverted") ∧
    (entry claimFailsEnv).exit = 1 ∧
    stderr (entry claimFailsEnv).events =
      [("❌ Deployment failed:",
        .rejected (.claimReputationRewards daoAddress) "execution reverted")] := by
  have hfail : (run main claimFailsEnv []).outcome =
      .error (.rejected (.claimReputationRewards daoAddress) "execution reverted") := rfl
  have h := failure_report claimFailsEnv _ hfail
  exact ⟨hfail, h.1, h.2.2.1⟩


theorem calls_successEvents (deployer token dao : String) (content : ContentTuple)
    (rep bal : Nat) :
    calls (successEvents deployer token dao content rep bal) =
      successCalls deployer token dao := rfl

theorem stdout_successEvents (deployer token dao : String) (content : ContentTuple)
    (rep bal : Nat) :
    (stdout (successEvents deployer token dao content rep bal)).take 17 =
      progressLines deployer token dao := rfl

/-- The addresses handed out along the calls of a complete run are the two answers to the
deployments. -/
theorem deployedAddresses_successCalls (env : Env) (deployer token dao : String)
    (ht : env [.getSigners, .getContractFactory "ERC20Mock"] (tokenDeployment deployer) =
      .ok token)
    (ha : env [.getSigners, .getContractFactory "ERC20Mock", tokenDeployment deployer,
        .waitForDeployment (tokenDeployment deployer), .getContractFactory "AIGenDAO"]
        (daoDeployment token) = .ok dao) :
    deployedAddresses env [] (successCalls deployer token dao) = [token, dao] := by
  simp only [tokenDeployment, daoDeployment] at ht ha
  simp only [successCalls, deployedAddresses, tokenDeployment, daoDeployment, firstCreation,
    secondCreation, List.nil_append, List.cons_append, ht, ha, List.append_nil]

/-- A rejected `getSigners` is a failing call. -/
theorem getSigners_ok_of_allCallsSucceed (env : Env) (hall : AllCallsSucceed env) :
    ∃ signers, env [] .getSigners = .ok signers := by
  cases h : env [] Call.getSigners with
  | ok signers => exact ⟨signers, rfl⟩
  | error why =>
    exfalso
    refine (allCallsSucceed_iff env).mp hall .getSigners why ?_
    simp only [main, bind_eq_progBind, pure_eq_progPure, Prog.bind, consoleLog, getSigners,
      perform, outcome_log, outcome_call, h]

set_option maxRecDepth 4000 in
/-- C10: two environments in which every issued call succeeds and which hand out the same
signer list and the same addresses for the deployments receive the same calls with the same
arguments, whatever the contract methods, the waits and the reads return.  Every vote goes to
id 0, every batch vote to [0, 1], every read to id 0; the progress lines up to the content
read are the same in both runs, and with a signing account they contain the four lines that
name the token ids 0 and 1. -/
theorem hard_coded_ids (env₁ env₂ : Env) (h₁ : AllCallsSucceed env₁)
    (h₂ : AllCallsSucceed env₂) (hs : env₁ [] .getSigners = env₂ [] .getSigners)
    (hd : deployedAddresses env₁ [] (calls (run main env₁ []).events) =
      deployedAddresses env₂ [] (calls (run main env₂ []).events)) :
    calls (run main env₁ []).events = calls (run main env₂ []).events ∧
    (∀ dao id, Call.vote dao id ∈ calls (run main env₁ []).events → id = 0) ∧
    (∀ dao ids, Call.batchVote dao ids ∈ calls (run main env₁ []).events → ids = [0, 1]) ∧
    (∀ dao id, Call.getContent dao id ∈ calls (run main env₁ []).events → id = 0) ∧
    (stdout (run main env₁ []).events).take 17 = (stdout (run main env₂ []).events).take 17 ∧
    (∀ s rest, env₁ [] .getSigners = .ok (s :: rest) →
      ∀ line ∈ ["✅ Content created (Token ID: 0)", "✅ Content created (Token ID: 1)",
          "✅ Voted on Token ID 0", "✅ Batch voted on Token IDs [0, 1]"],
        line ∈ stdout (run main env₁ []).events ∧ line ∈ stdout (run main env₂ []).events) := by
  obtain ⟨signers, hsig⟩ := getSigners_ok_of_allCallsSucceed env₁ h₁
  rcases signers with _ | ⟨s, rest⟩
  · have hr₁ := run_without_signer env₁ hsig
    have hr₂ := run_without_signer env₂ (hs ▸ hsig)
    rw [hr₁, hr₂]
    refine ⟨rfl, ?_, ?_, ?_, rfl, ?_⟩
    · intro dao id h
      simp [calls] at h
    · intro dao ids h
      simp [calls] at h
    · intro dao id h
      simp [calls] at h
    · intro s rest h
      rw [hsig] at h
      simp at h
  · have hsig₂ : env₂ [] .getSigners = .ok (s :: rest) := hs ▸ hsig
    have ho₁ := outcome_ok_of_allCallsSucceed env₁ h₁ s rest hsig
    have ho₂ := outcome_ok_of_allCallsSucceed env₂ h₂ s rest hsig₂
    obtain ⟨s₁, rest₁, t₁, a₁, c₁, rep₁, bal₁, hs₁, ht₁, ha₁, hev₁⟩ := complete_run env₁ ho₁
    obtain ⟨s₂, rest₂, t₂, a₂, c₂, rep₂, bal₂, hs₂, ht₂, ha₂, hev₂⟩ := complete_run env₂ ho₂
    rw [hsig] at hs₁
    rw [hsig₂] at hs₂
    simp only [Except.ok.injEq, List.cons.injEq] at hs₁ hs₂
    obtain ⟨rfl, -⟩ := hs₁
    obtain ⟨rfl, -⟩ := hs₂
    rw [hev₁, hev₂, calls_successEvents, calls_successEvents,
      deployedAddresses_successCalls env₁ _ _ _ ht₁ ha₁,
      deployedAddresses_successCalls env₂ _ _ _ ht₂ ha₂] at hd
    simp only [List.cons.injEq, and_true] at hd
    obtain ⟨rfl, rfl⟩ := hd
    rw [hev₁, hev₂, calls_successEvents, calls_successEvents, stdout_successEvents,
      stdout_successEvents]
    refine ⟨rfl, ?_, ?_, ?_, rfl, ?_⟩
    · intro dao id h
      simp only [successCalls, tokenDeployment, daoDeployment, firstCreation, secondCreation,
        List.mem_cons, List.mem_singleton, List.not_mem_nil, reduceCtorEq, Call.vote.injEq,
        false_or, or_false] at h
      exact h.2
    · intro dao ids h
      simp only [successCalls, tokenDeployment, daoDeployment, firstCreation, secondCreation,
        List.mem_cons, List.mem_singleton, List.not_mem_nil, reduceCtorEq,
        Call.batchVote.injEq, false_or, or_false] at h
      exact h.2
    · intro dao id h
      simp only [successCalls, tokenDeployment, daoDeployment, firstCreation, secondCreation,
        List.mem_cons, List.mem_singleton, List.not_mem_nil, reduceCtorEq,
        Call.getContent.injEq, false_or, or_false] at h
      exact h.2
    · intro s' rest' _ line hline
      simp only [List.mem_cons, List.mem_singleton, List.not_mem_nil, or_false] at hline
      rcases hline with rfl | rfl | rfl | rfl <;>
        exact ⟨by simp [successEvents, stdout], by simp [successEvents, stdout]⟩

set_option maxRecDepth 4000 in
/-- Witness for C10: two nodes that differ in what the contract methods, the reads and the waits
return, such as the receipt of the first creation. -/
theorem hard_coded_ids_witness :
    AllCallsSucceed sampleEnv ∧ AllCallsSucceed otherEnv ∧
    sampleEnv [] .getSigners = otherEnv [] .getSigners ∧
    otherEnv [.getSigners] (.wait (firstCreation daoAddress)) ≠
      sampleEnv [.getSigners] (.wait (firstCreation daoAddress)) ∧
    calls (run main sampleEnv []).events = calls (run main otherEnv []).events := by
  have h₁ : AllCallsSucceed sampleEnv := by
    rw [allCallsSucceed_iff]
    intro c reason h
    have hok : (run main sampleEnv []).outcome = .ok () := rfl
    rw [hok] at h
    simp at h
  have h₂ : AllCallsSucceed otherEnv := by
    rw [allCallsSucceed_iff]
    intro c reason h
    have hok : (run main otherEnv []).outcome = .ok () := rfl
    rw [hok] at h
    simp at h
  have h := hard_coded_ids sampleEnv otherEnv h₁ h₂ rfl (by decide)
  refine ⟨h₁, h₂, rfl, ?_, h.1⟩
  intro hne
  have hrec : ({ status := 1, emitted := [41, 42] } : Receipt) =
      { status := 1, emitted := [] } := Except.ok.inj hne
  exact absurd hrec (by decide)

end AIGenDAO
